import Mathlib

/-!
Verification development for the DDPG car-racing training script
(`ddpg_car-racing.py`).  The script trains an actor-critic pair with soft
target updates, an epsilon-greedy exploration schedule with Gaussian noise,
a decaying learning rate with a floor, and a fixed-capacity replay buffer.

All real-valued quantities of the script are embedded as rationals (`ℚ`),
except the activation functions of the actor head which are transcendental
and are embedded over `ℝ`.
-/

namespace DDPG

/-! ## Hyperparameters (module constants of the script) -/

/-- Capacity of the replay buffer: `BUFFER_SIZE = 10000`. -/
def BUFFER_SIZE : Nat := 10000

/-- Sampled batch size: `MINIBATCH_SIZE = 64`. -/
def MINIBATCH_SIZE : Nat := 64

/-- Discount factor: `GAMMA = 0.9`. -/
def GAMMA : ℚ := 9 / 10

/-- Soft target update rate: `TAU = 0.01`. -/
def TAU : ℚ := 1 / 100

/-- Per-episode epsilon decay: `EPS_DECAY_RATE = 0.99`. -/
def EPS_DECAY_RATE : ℚ := 99 / 100

/-- Per-episode learning-rate decay: `LR_DECAY_RATE = 0.99`. -/
def LR_DECAY_RATE : ℚ := 99 / 100

/-- Initial learning rate: `INITIAL_LR = 0.0001`. -/
def INITIAL_LR : ℚ := 1 / 10000

/-- Learning-rate floor: `MINI_LR = 1e-6`. -/
def MINI_LR : ℚ := 1 / 1000000

/-! ## Soft target update (ActorNetwork / CriticNetwork
`update_target_network_params`)

Both networks build the op list
`target[i].assign(tau * online[i] + (1 - tau) * target[i])` for every
parameter index `i`, and `update_target_network` runs exactly this list. -/

/-- Parameter vectors of one network: the online copy (`network_params`)
and the target copy (`target_network_params`), identified positionally. -/
structure NetParams where
  online : List ℚ
  target : List ℚ

/-- The per-parameter soft blend:
`tf.multiply(online_i, tau) + tf.multiply(target_i, 1 - tau)` applied at
every index, as built in `update_target_network_params`. -/
def softUpdate (tau : ℚ) (online target : List ℚ) : List ℚ :=
  List.zipWith (fun o t => tau * o + (1 - tau) * t) online target

/-- The `update_target_network` call: runs the assign ops, replacing the target
parameters by the soft blend; the online parameters are untouched. -/
def updateTargetNetwork (tau : ℚ) (p : NetParams) : NetParams :=
  { p with target := softUpdate tau p.online p.target }

/-- The optimizer step (`apply_gradients` over `network_params` for the
actor, `minimize(self.loss)` for the critic, whose loss depends only on
the online parameters): it adds some per-parameter increment `delta` to
the online parameters and never writes a target parameter. -/
def optimizeStep (delta : List ℚ) (p : NetParams) : NetParams :=
  { p with online := List.zipWith (fun w d => w + d) p.online delta }

/-! ## Bootstrapped targets (train, lines 342-353) -/

/-- One entry of the `y_i` loop:
`if t_batch[k]: y_i.append(r_batch[k]) else:
 y_i.append(r_batch[k] + GAMMA * target_q[k])`. -/
def bootstrapTarget (rk : ℚ) (tk : Bool) (qk : ℚ) : ℚ :=
  if tk then rk else rk + GAMMA * qk

/-- The `y_i` list built by `for k in range(MINIBATCH_SIZE)` over the
sampled reward, terminal and target-Q batches. -/
def computeTargets (r : List ℚ) (t : List Bool) (tq : List ℚ) : List ℚ :=
  (List.range MINIBATCH_SIZE).map
    (fun k => bootstrapTarget (r.getD k 0) (t.getD k false) (tq.getD k 0))

/-! ## Training-branch guard (train, line 338) -/

/-- The guard `replay_buffer.size() > MINIBATCH_SIZE`: the sampling branch of the
step loop runs exactly when this holds. -/
def trainBranchRuns (size : Nat) : Bool := MINIBATCH_SIZE < size

/-! ## Learning-rate decay (train, lines 298-299) -/

/-- One per-episode decay: `lr *= LR_DECAY_RATE; lr = np.max([lr, MINI_LR])`. -/
def lrStep (lr : ℚ) : ℚ := max (lr * LR_DECAY_RATE) MINI_LR

/-- The learning rate after `n` completed episodes, starting from
`lr = INITIAL_LR`. -/
def lrAfter : Nat → ℚ
  | 0 => INITIAL_LR
  | n + 1 => lrStep (lrAfter n)

/-! ## Exploration noise (train, lines 320-321)

`noise = np.random.normal(0, 0.2*eps, 3)` followed by
`noise[1] = np.random.normal(0.4, 0.1*eps)`: the three noise components
are Gaussian draws with these means and standard deviations. -/

/-- Mean of each noise component: `0` for components 0 and 2, `0.4` for
component 1 (the overwrite `noise[1] = np.random.normal(0.4, 0.1*eps)`). -/
def noiseMean : Fin 3 → ℚ := fun i => if i = 1 then 2 / 5 else 0

/-- Standard deviation of each noise component at exploration rate `eps`:
`0.2 * eps` for components 0 and 2, `0.1 * eps` for component 1. -/
def noiseStd (eps : ℚ) : Fin 3 → ℚ :=
  fun i => if i = 1 then (1 / 10) * eps else (1 / 5) * eps

/-! ## Action selection (train, lines 312-323) -/

/-- The epsilon-random branch: `action = np.random.uniform(-1, 1, 3)` and
then `action[1] = action[1] + np.random.uniform(0, 1)`, where `u` is the
first uniform draw and `u1` the extra `Uniform(0,1)` draw added to the
acceleration component. -/
def randomBranchAction (u : Fin 3 → ℚ) (u1 : ℚ) : Fin 3 → ℚ :=
  fun i => if i = 1 then u 1 + u1 else u i

/-- From `action[0] = action[0] + noise; env.step(action[0])`: the action the
environment receives is the branch output plus the noise vector, with no
clipping applied. -/
def steppedAction (base noise : Fin 3 → ℚ) : Fin 3 → ℚ :=
  fun i => base i + noise i

/-! ## Actor output head (ActorNetwork.create_actor_network, lines 118-125)

`steering = fully_connected(net, 1, activation='tanh')`,
`acceleration = fully_connected(net, 1, activation='sigmoid')`,
`brake = fully_connected(net, 1, activation='sigmoid')`,
`scaled_out = tf.concat([steering, acceleration, brake], 1)`.
The pre-activation values of the three heads are arbitrary reals; the
activations are the mathematical `tanh` and logistic sigmoid. -/

/-- The logistic sigmoid activation `1 / (1 + exp (-x))`. -/
noncomputable def sigmoid (x : ℝ) : ℝ := 1 / (1 + Real.exp (-x))

/-- The `scaled_out` tensor: the concatenation of the tanh steering head and the two
sigmoid heads, as a function of the three heads' pre-activation values. -/
noncomputable def actorScaledOut (steerPre accelPre brakePre : ℝ) :
    Fin 3 → ℝ :=
  fun i =>
    if i = 0 then Real.tanh steerPre
    else if i = 1 then sigmoid accelPre
    else sigmoid brakePre

/-! ## Replay buffer (imported from `replay_buffer_ddpg`) -/

/-- Modelled from the spec: the `ReplayBuffer` class is imported from
`replay_buffer_ddpg`, whose source file is not part of the repository.
The spec's data model: a `Transition` is "(state, action, reward,
terminal flag, next state, learning rate at insertion time). Immutable
once stored."  Observations are abstracted as identifiers. -/
structure Transition where
  state : Nat
  action : Fin 3 → ℚ
  reward : ℚ
  terminal : Bool
  nextState : Nat
  lr : ℚ

/-- Modelled from the spec: "fixed-size ordered container of Transitions;
insertion evicts oldest entry once at capacity (ring-buffer semantics)".
`buffer` holds the stored transitions oldest first. -/
structure ReplayBuffer where
  bufferSize : Nat
  buffer : List Transition

/-- Modelled from the spec: a freshly constructed, empty buffer with the
given capacity (`ReplayBuffer(BUFFER_SIZE, RANDOM_SEED)`). -/
def ReplayBuffer.empty (cap : Nat) : ReplayBuffer := ⟨cap, []⟩

/-- Modelled from the spec: "`add(transition)` — amortized O(1) insert,
evicts oldest when full": append the new transition; once at capacity,
drop the oldest entry first. -/
def ReplayBuffer.add (b : ReplayBuffer) (tr : Transition) : ReplayBuffer :=
  if b.buffer.length < b.bufferSize then ⟨b.bufferSize, b.buffer ++ [tr]⟩
  else ⟨b.bufferSize, b.buffer.tail ++ [tr]⟩

/-- Current occupancy, `replay_buffer.size()`. -/
def ReplayBuffer.size (b : ReplayBuffer) : Nat := b.buffer.length

/-- A sequence of insertions, oldest first. -/
def ReplayBuffer.addAll (b : ReplayBuffer) : List Transition → ReplayBuffer
  | [] => b
  | tr :: ts => (b.add tr).addAll ts

/-- A concrete transition used to instantiate witnesses. -/
def tr0 : Transition := ⟨0, fun _ => 0, 0, false, 0, 0⟩

/-! ## Learning rate fed to the optimizers (gather_nd, lines 103 and 184)

Both networks build `self.lr = tf.gather_nd(self.learning_rate, [0])` and
construct their Adam optimizer with this `self.lr`; `train` feeds
`self.learning_rate` with the `lr_batch` returned by `sample_batch`. -/

/-- The op `tf.gather_nd(learning_rate, [0])`: element 0 of the fed vector. -/
def gatherNd0 (lrFeed : List ℚ) : ℚ := lrFeed.getD 0 0

/-- Modelled from the spec (sampling "decomposed into per-field batches"):
the `lr_batch` field of a sampled batch is the insertion-time learning
rate of each sampled transition, in sample order. -/
def lrBatch (batch : List Transition) : List ℚ := batch.map (fun tr => tr.lr)

/-! ## Logged Qmax (train, lines 366-374) -/

/-- The quotient `ep_ave_max_q / float(j)` as evaluated on a training step: Python
float division by `0.0` produces a non-finite value (`inf` or `nan`),
modelled as `none`; for `j ≠ 0` the finite quotient is returned. -/
def qmaxLogged (epAveMaxQ : ℚ) (j : Nat) : Option ℚ :=
  if j = 0 then none else some (epAveMaxQ / (j : ℚ))

end DDPG

namespace DDPG

/-! ## Theorems -/

/-- A pointwise description of `List.zipWith` under `getD`. -/
theorem getD_zipWith (f : ℚ → ℚ → ℚ) (l1 l2 : List ℚ) (i : Nat)
    (h1 : i < l1.length) (h2 : i < l2.length) :
    (List.zipWith f l1 l2).getD i 0 = f (l1.getD i 0) (l2.getD i 0) := by
  induction l1 generalizing l2 i with
  | nil => simp at h1
  | cons a l ih =>
    cases l2 with
    | nil => simp at h2
    | cons b l2 =>
      cases i with
      | zero => simp
      | succ i =>
        simp only [List.zipWith_cons_cons, List.getD_cons_succ]
        exact ih l2 i (by simpa using h1) (by simpa using h2)

/-- Pointwise value of a map over `List.range` under `getD`. -/
theorem getD_map_range (f : Nat → ℚ) (n k : Nat) (hk : k < n) :
    ((List.range n).map f).getD k 0 = f k := by
  have hlen : k < ((List.range n).map f).length := by simpa using hk
  rw [List.getD_eq_getElem _ _ hlen, List.getElem_map, List.getElem_range]

/-- C1: one call to `update_target_network` sets every target parameter `i`
to `tau * online_i + (1 - tau) * previous_target_i`, for the actor and the
critic alike (both build the identical op list), and the optimizer step —
the only other parameter-writing rule of a training step — leaves every
target parameter unchanged. -/
theorem update_target_soft_blend (tau : ℚ) (p : NetParams) (i : Nat)
    (h1 : i < p.online.length) (h2 : i < p.target.length) :
    (updateTargetNetwork tau p).target.getD i 0 =
      tau * p.online.getD i 0 + (1 - tau) * p.target.getD i 0 ∧
    ∀ (delta : List ℚ) (q : NetParams),
      (optimizeStep delta q).target = q.target := by
  refine ⟨getD_zipWith _ _ _ i h1 h2, fun delta q => rfl⟩

/-- Witness for C1 at `tau = TAU`, online `[1]`, target `[2]`, index `0`. -/
theorem update_target_soft_blend_witness :
    (0 : Nat) < ([(1 : ℚ)]).length ∧ (0 : Nat) < ([(2 : ℚ)]).length ∧
    ((updateTargetNetwork TAU ⟨[1], [2]⟩).target.getD 0 0 =
      TAU * (([(1 : ℚ)]).getD 0 0) + (1 - TAU) * (([(2 : ℚ)]).getD 0 0) ∧
    ∀ (delta : List ℚ) (q : NetParams),
      (optimizeStep delta q).target = q.target) :=
  ⟨by simp, by simp,
    update_target_soft_blend TAU ⟨[1], [2]⟩ 0 (by simp) (by simp)⟩

/-- C2: for every index `k` of the minibatch, the bootstrapped target `y_k`
equals the raw reward when the terminal flag is set, and
`r_k + GAMMA * target_q_k` when it is not. -/
theorem bootstrapped_targets (r : List ℚ) (t : List Bool) (tq : List ℚ)
    (k : Nat) (hk : k < MINIBATCH_SIZE) :
    (computeTargets r t tq).getD k 0 =
      if t.getD k false then r.getD k 0
      else r.getD k 0 + GAMMA * tq.getD k 0 := by
  unfold computeTargets
  rw [getD_map_range _ _ _ hk]
  rfl

/-- Witness for C2 at `r = [3]`, `t = [false]`, `tq = [2]`, `k = 0`. -/
theorem bootstrapped_targets_witness :
    (0 : Nat) < MINIBATCH_SIZE ∧
    (computeTargets [(3 : ℚ)] [false] [(2 : ℚ)]).getD 0 0 =
      (if ([false].getD 0 false) then ([(3 : ℚ)]).getD 0 0
       else ([(3 : ℚ)]).getD 0 0 + GAMMA * ([(2 : ℚ)]).getD 0 0) :=
  ⟨by decide, bootstrapped_targets [3] [false] [2] 0 (by decide)⟩

/-- C3 counterexample: at occupancy exactly `MINIBATCH_SIZE = 64` the spec's
condition "occupancy ≥ batch size" holds, yet the guard
`replay_buffer.size() > MINIBATCH_SIZE` does not fire, so "sample_batch is
called if and only if occupancy is at least the batch size" is false. -/
theorem guard_at_64_counterexample :
    MINIBATCH_SIZE ≤ 64 ∧ trainBranchRuns 64 = false := by decide

/-- C3 (amended): on every step, `sample_batch(MINIBATCH_SIZE)` is called
if and only if the buffer occupancy strictly exceeds `MINIBATCH_SIZE`;
since strict excess implies occupancy ≥ batch size, sampling with fewer
than batch-size stored transitions is unreachable. -/
theorem guard_samples_iff (size : Nat) :
    (trainBranchRuns size = true ↔ MINIBATCH_SIZE < size) ∧
    (trainBranchRuns size = true → MINIBATCH_SIZE ≤ size) := by
  refine ⟨by simp [trainBranchRuns], fun h => ?_⟩
  have := (by simp [trainBranchRuns] : trainBranchRuns size = true ↔
    MINIBATCH_SIZE < size).mp h
  omega

/-- Witness for C3 (amended) at occupancy `65`. -/
theorem guard_samples_iff_witness :
    (trainBranchRuns 65 = true ↔ MINIBATCH_SIZE < 65) ∧
    (trainBranchRuns 65 = true → MINIBATCH_SIZE ≤ 65) :=
  guard_samples_iff 65

/-- C4: after any number of completed episodes the decayed learning rate
never drops below the floor `MINI_LR`. -/
theorem lr_floor (n : Nat) : MINI_LR ≤ lrAfter n := by
  cases n with
  | zero =>
    simp only [lrAfter, INITIAL_LR, MINI_LR]
    norm_num
  | succ n =>
    simp only [lrAfter, lrStep]
    exact le_max_right _ _

/-- Witness for C4 at `n = 5`. -/
theorem lr_floor_witness : MINI_LR ≤ lrAfter 5 := lr_floor 5

/-- C5 counterexample: the noise component added to the acceleration has
mean `0.4`, not `0`, so the noise vector is not zero-mean in every
component. -/
theorem noise_mean_counterexample : noiseMean 1 ≠ 0 := by
  simp only [noiseMean]
  norm_num

/-- C5 (amended): on every step, regardless of branch, the added noise is
Gaussian with standard deviation proportional to the current eps in every
component (`0.2 * eps` for steering and brake, `0.1 * eps` for
acceleration), with mean zero in the steering and brake components but
mean `0.4` in the acceleration component. -/
theorem noise_distribution (eps : ℚ) :
    noiseMean 0 = 0 ∧ noiseMean 2 = 0 ∧ noiseMean 1 = 2 / 5 ∧
    noiseStd eps 0 = (1 / 5) * eps ∧ noiseStd eps 1 = (1 / 10) * eps ∧
    noiseStd eps 2 = (1 / 5) * eps := by
  refine ⟨?_, ?_, ?_, ?_, ?_, ?_⟩ <;> simp [noiseMean, noiseStd]

/-- Witness for C5 (amended) at `eps = 1/2`. -/
theorem noise_distribution_witness :
    noiseMean 0 = 0 ∧ noiseMean 2 = 0 ∧ noiseMean 1 = 2 / 5 ∧
    noiseStd (1 / 2) 0 = (1 / 5) * (1 / 2) ∧
    noiseStd (1 / 2) 1 = (1 / 10) * (1 / 2) ∧
    noiseStd (1 / 2) 2 = (1 / 5) * (1 / 2) :=
  noise_distribution (1 / 2)

/-- The mathematical `tanh` takes values in `[-1, 1]`. -/
theorem tanh_mem_Icc (x : ℝ) : -1 ≤ Real.tanh x ∧ Real.tanh x ≤ 1 := by
  have hc := Real.cosh_pos x
  rw [Real.tanh_eq_sinh_div_cosh]
  constructor
  · rw [le_div_iff₀ hc]
    have h1 := Real.sinh_add_cosh x
    have h2 := Real.exp_pos x
    nlinarith
  · rw [div_le_one hc]
    exact le_of_lt (Real.sinh_lt_cosh x)

/-- The logistic sigmoid takes values in `[0, 1]`. -/
theorem sigmoid_mem_Icc (x : ℝ) : 0 ≤ sigmoid x ∧ sigmoid x ≤ 1 := by
  have he := Real.exp_pos (-x)
  unfold sigmoid
  constructor
  · positivity
  · rw [div_le_one (by linarith)]
    linarith

/-- C6: for every pre-activation input, the actor's output vector is the
tanh steering head followed by the two sigmoid heads, so its steering
component lies in `[-1, 1]` and its acceleration and brake components lie
in `[0, 1]`. -/
theorem actor_output_ranges (sp ap bp : ℝ) :
    actorScaledOut sp ap bp 0 = Real.tanh sp ∧
    actorScaledOut sp ap bp 1 = sigmoid ap ∧
    actorScaledOut sp ap bp 2 = sigmoid bp ∧
    (-1 ≤ actorScaledOut sp ap bp 0 ∧ actorScaledOut sp ap bp 0 ≤ 1) ∧
    (0 ≤ actorScaledOut sp ap bp 1 ∧ actorScaledOut sp ap bp 1 ≤ 1) ∧
    (0 ≤ actorScaledOut sp ap bp 2 ∧ actorScaledOut sp ap bp 2 ≤ 1) := by
  have h0 : actorScaledOut sp ap bp 0 = Real.tanh sp := by
    simp [actorScaledOut]
  have h1 : actorScaledOut sp ap bp 1 = sigmoid ap := by
    simp [actorScaledOut]
  have h2 : actorScaledOut sp ap bp 2 = sigmoid bp := by
    simp [actorScaledOut]
  rw [h0, h1, h2]
  exact ⟨rfl, rfl, rfl, tanh_mem_Icc sp, sigmoid_mem_Icc ap,
    sigmoid_mem_Icc bp⟩

/-- The contents of a buffer after a run of insertions: starting from a
buffer holding `l` (with `l.length ≤ cap`, `0 < cap`), inserting `ts`
leaves exactly the last `cap` elements of `l ++ ts`, oldest first. -/
theorem addAll_buffer_eq (cap : Nat) (hcap : 0 < cap) (ts l : List Transition)
    (hl : l.length ≤ cap) :
    (ReplayBuffer.addAll ⟨cap, l⟩ ts).buffer =
      (l ++ ts).drop (l.length + ts.length - cap) := by
  induction ts generalizing l with
  | nil =>
    simp [ReplayBuffer.addAll, Nat.sub_eq_zero_of_le hl]
  | cons t ts ih =>
    have hstep : ReplayBuffer.addAll ⟨cap, l⟩ (t :: ts) =
        ReplayBuffer.addAll (ReplayBuffer.add ⟨cap, l⟩ t) ts := rfl
    by_cases hlt : l.length < cap
    · have hadd : ReplayBuffer.add ⟨cap, l⟩ t = ⟨cap, l ++ [t]⟩ := by
        simp [ReplayBuffer.add, hlt]
      have hlen : (l ++ [t]).length ≤ cap := by
        simp only [List.length_append, List.length_cons, List.length_nil]
        omega
      rw [hstep, hadd, ih (l ++ [t]) hlen, List.append_assoc]
      have hidx : (l ++ [t]).length + ts.length - cap =
          l.length + (t :: ts).length - cap := by
        simp only [List.length_append, List.length_cons, List.length_nil]
        omega
      rw [hidx]
      rfl
    · have heq : l.length = cap := le_antisymm hl (not_lt.mp hlt)
      have hne : l ≠ [] := by
        intro h0
        rw [h0] at heq
        simp at heq
        omega
      obtain ⟨a, l', rfl⟩ := List.exists_cons_of_ne_nil hne
      have hlen' : l'.length + 1 = cap := by simpa using heq
      have hadd : ReplayBuffer.add ⟨cap, a :: l'⟩ t = ⟨cap, l' ++ [t]⟩ := by
        dsimp only [ReplayBuffer.add, List.tail_cons]
        rw [if_neg hlt]
      have hlen : (l' ++ [t]).length ≤ cap := by
        simp only [List.length_append, List.length_cons, List.length_nil]
        omega
      rw [hstep, hadd, ih (l' ++ [t]) hlen, List.append_assoc]
      have hidx1 : (l' ++ [t]).length + ts.length - cap = ts.length := by
        simp only [List.length_append, List.length_cons, List.length_nil]
        omega
      have hidx2 : (a :: l').length + (t :: ts).length - cap =
          ts.length + 1 := by
        simp only [List.length_cons]
        omega
      rw [hidx1, hidx2]
      rfl

/-- C7: after inserting more than `BUFFER_SIZE` transitions into an empty
buffer, the occupancy is exactly `BUFFER_SIZE` and the retained contents
are the most recent `BUFFER_SIZE` insertions in order — every insertion
beyond capacity evicted the oldest stored transition first. -/
theorem buffer_fifo_cap (ts : List Transition) (h : BUFFER_SIZE < ts.length) :
    ((ReplayBuffer.empty BUFFER_SIZE).addAll ts).size = BUFFER_SIZE ∧
    ((ReplayBuffer.empty BUFFER_SIZE).addAll ts).buffer =
      ts.drop (ts.length - BUFFER_SIZE) := by
  have hcap : 0 < BUFFER_SIZE := by decide
  have hbuf := addAll_buffer_eq BUFFER_SIZE hcap ts [] (by simp)
  have hbuf' : ((ReplayBuffer.empty BUFFER_SIZE).addAll ts).buffer =
      ts.drop (ts.length - BUFFER_SIZE) := by
    rw [show ReplayBuffer.empty BUFFER_SIZE = ⟨BUFFER_SIZE, []⟩ from rfl, hbuf]
    simp
  refine ⟨?_, hbuf'⟩
  rw [ReplayBuffer.size, hbuf', List.length_drop]
  omega

/-- Witness for C7: `BUFFER_SIZE + 1` insertions of `tr0`. -/
theorem buffer_fifo_cap_witness :
    BUFFER_SIZE < (List.replicate (BUFFER_SIZE + 1) tr0).length ∧
    (((ReplayBuffer.empty BUFFER_SIZE).addAll
        (List.replicate (BUFFER_SIZE + 1) tr0)).size = BUFFER_SIZE ∧
      ((ReplayBuffer.empty BUFFER_SIZE).addAll
        (List.replicate (BUFFER_SIZE + 1) tr0)).buffer =
        (List.replicate (BUFFER_SIZE + 1) tr0).drop
          ((List.replicate (BUFFER_SIZE + 1) tr0).length - BUFFER_SIZE)) :=
  ⟨by simp, buffer_fifo_cap (List.replicate (BUFFER_SIZE + 1) tr0) (by simp)⟩

/-- C8: the learning rate the Adam optimizers of both networks actually
apply on a training update is `gather_nd(lr_batch, [0])` — the first
element of the sampled `lr_batch`, i.e. the rate stored at insertion time
of the first sampled transition — and this can differ from the training
loop's current decayed rate. -/
theorem applied_lr_is_first_sampled (batch : List Transition)
    (h : batch ≠ []) :
    gatherNd0 (lrBatch batch) = (batch.head h).lr ∧
    ∃ tr : Transition,
      gatherNd0 (lrBatch [tr]) = tr.lr ∧ gatherNd0 (lrBatch [tr]) ≠ lrAfter 1 := by
  constructor
  · cases batch with
    | nil => exact absurd rfl h
    | cons a l => rfl
  · refine ⟨⟨0, fun _ => 0, 0, false, 0, INITIAL_LR⟩, rfl, ?_⟩
    show INITIAL_LR ≠ lrAfter 1
    have : lrAfter 1 = max (INITIAL_LR * LR_DECAY_RATE) MINI_LR := rfl
    rw [this, max_eq_left (by norm_num [INITIAL_LR, LR_DECAY_RATE, MINI_LR])]
    norm_num [INITIAL_LR, LR_DECAY_RATE]

/-- Witness for C8 at the one-element batch `[tr0]`. -/
theorem applied_lr_is_first_sampled_witness :
    gatherNd0 (lrBatch [tr0]) = (([tr0].head (by simp)).lr) ∧
    ∃ tr : Transition,
      gatherNd0 (lrBatch [tr]) = tr.lr ∧
      gatherNd0 (lrBatch [tr]) ≠ lrAfter 1 :=
  applied_lr_is_first_sampled [tr0] (by simp)

/-- Occupancy never decreases across an insertion. -/
theorem size_le_size_add (b : ReplayBuffer) (tr : Transition) :
    b.size ≤ (b.add tr).size := by
  unfold ReplayBuffer.add ReplayBuffer.size
  by_cases h : b.buffer.length < b.bufferSize
  · simp only [if_pos h, List.length_append, List.length_cons,
      List.length_nil]
    omega
  · simp only [if_neg h, List.length_append, List.length_tail,
      List.length_cons, List.length_nil]
    omega

/-- C9: if the buffer occupancy already exceeds `MINIBATCH_SIZE` when an
episode begins, then on the episode's first step (`j = 0`) the occupancy
after the step's insertion still exceeds `MINIBATCH_SIZE`, so the training
branch runs and evaluates `ep_ave_max_q / float(0)` — an unguarded
division by zero whose logged Qmax value is non-finite. -/
theorem qmax_div_zero_on_first_step (b : ReplayBuffer) (tr : Transition)
    (q : ℚ) (h : MINIBATCH_SIZE < b.size) :
    trainBranchRuns (b.add tr).size = true ∧ qmaxLogged q 0 = none := by
  constructor
  · have hle := size_le_size_add b tr
    simp only [trainBranchRuns, decide_eq_true_eq]
    omega
  · rfl

/-- Witness for C9 at a buffer holding 65 transitions. -/
theorem qmax_div_zero_on_first_step_witness :
    MINIBATCH_SIZE < (ReplayBuffer.mk BUFFER_SIZE
      (List.replicate 65 tr0)).size ∧
    (trainBranchRuns ((ReplayBuffer.mk BUFFER_SIZE
        (List.replicate 65 tr0)).add tr0).size = true ∧
      qmaxLogged 7 0 = none) :=
  ⟨by simp [ReplayBuffer.size, MINIBATCH_SIZE],
    qmax_div_zero_on_first_step _ tr0 7
      (by simp [ReplayBuffer.size, MINIBATCH_SIZE])⟩

/-- C10: the action passed to `env.step` is never clipped: there are
uniform draws inside their supports and Gaussian draws for which the
acceleration component exceeds 1 and the steering component falls below
-1 in the epsilon-random branch, and Gaussian draws pushing the steering
component below -1 even when the actor branch's output is within its
activation ranges. -/
theorem env_action_out_of_range :
    (∃ (u : Fin 3 → ℚ) (u1 : ℚ) (noise : Fin 3 → ℚ),
      (∀ i, -1 < u i ∧ u i < 1) ∧ 0 ≤ u1 ∧ u1 < 1 ∧
      1 < steppedAction (randomBranchAction u u1) noise 1 ∧
      steppedAction (randomBranchAction u u1) noise 0 < -1) ∧
    (∃ base noise : Fin 3 → ℚ,
      (-1 ≤ base 0 ∧ base 0 ≤ 1) ∧ (0 ≤ base 1 ∧ base 1 ≤ 1) ∧
      (0 ≤ base 2 ∧ base 2 ≤ 1) ∧
      steppedAction base noise 0 < -1) := by
  constructor
  · refine ⟨fun _ => 9 / 10, 9 / 10, fun i => if i = 0 then -3 else 0,
      fun i => by norm_num, by norm_num, by norm_num, ?_, ?_⟩
    · show (1 : ℚ) < steppedAction
        (randomBranchAction (fun _ => 9 / 10) (9 / 10))
        (fun i => if i = 0 then -3 else 0) 1
      norm_num [steppedAction, randomBranchAction]
    · show steppedAction (randomBranchAction (fun _ => 9 / 10) (9 / 10))
        (fun i => if i = 0 then -3 else 0) 0 < -1
      norm_num [steppedAction, randomBranchAction]
  · refine ⟨fun _ => 0, fun i => if i = 0 then -3 else 0,
      ⟨by norm_num, by norm_num⟩, ⟨le_refl 0, by norm_num⟩,
      ⟨le_refl 0, by norm_num⟩, ?_⟩
    norm_num [steppedAction]

end DDPG
